import Mathlib

/-!
Verification of the loan-strategy generator (`src/main.py`, class `LoanManager`).

Numbers are modelled as exact rationals (`ℚ`); the Python floats carry the same
arithmetic expressions, written here with the same decimal literals.  Python
dictionary lookups that can raise `KeyError` are modelled with `Option`; the
NumPy random source is modelled as an explicit stream of draws that is threaded
through the computation.
-/

namespace Consid24

/-- One entry of `self.personality_weights` (built in `LoanManager.__init__`). -/
structure PersonalityProfile where
  interest_sensitivity : ℚ
  environmental_bonus : ℚ
  award_preference : List String
  deriving DecidableEq, Repr

/-- The `personality_weights` dictionary from `LoanManager.__init__`
(`src/main.py` lines 13-39): a five-key table from personality name to
profile.  Dictionary lookup (`self.personality_weights[personality]`) is
modelled as this function; an absent key is `none` (Python: `KeyError`). -/
def personality_weights (p : String) : Option PersonalityProfile :=
  if p = "Conservative" then
    some { interest_sensitivity := 0.8, environmental_bonus := 0.3,
           award_preference := ["IkeaCheck", "HalfInterestRate"] }
  else if p = "RiskTaker" then
    some { interest_sensitivity := 0.4, environmental_bonus := 0.5,
           award_preference := ["GiftCard", "NoInterestRate"] }
  else if p = "Innovative" then
    some { interest_sensitivity := 0.6, environmental_bonus := 0.8,
           award_preference := ["IkeaDeliveryCheck", "GiftCard"] }
  else if p = "Practical" then
    some { interest_sensitivity := 0.7, environmental_bonus := 0.6,
           award_preference := ["IkeaFoodCoupon", "HalfInterestRate"] }
  else if p = "Spontaneous" then
    some { interest_sensitivity := 0.5, environmental_bonus := 0.4,
           award_preference := ["GiftCard", "IkeaCheck"] }
  else
    none

/-- The five keys of the `personality_weights` table. -/
def personality_keys : List String :=
  ["Conservative", "RiskTaker", "Innovative", "Practical", "Spontaneous"]

/-- The nested loan record of a customer: only `environmentalImpact` is read. -/
structure Loan where
  environmentalImpact : ℚ
  deriving DecidableEq, Repr

/-- A customer record from the map file, with the fields that
`calculate_credit_score`, `determine_interest_rate`,
`generate_award_strategy` and `generate_game_input` read. -/
structure Customer where
  name : String
  income : ℚ
  monthlyExpenses : ℚ
  capital : ℚ
  homeMortgage : ℚ
  hasStudentLoan : Bool
  numberOfKids : ℕ
  personality : String
  loan : Loan
  deriving DecidableEq, Repr

/-- The map file contents that `generate_game_input` reads from
`self.map_data`: the name, gameLengthInMonths and customers entries. -/
structure MapData where
  name : String
  gameLengthInMonths : ℕ
  customers : List Customer
  deriving DecidableEq, Repr

/-- `LoanManager.calculate_credit_score` (`src/main.py` lines 56-73),
translated expression for expression. -/
def calculate_credit_score (customer : Customer) : ℚ :=
  let monthly_disposable := customer.income - customer.monthlyExpenses
  let debt_ratio : ℚ :=
    if customer.income > 0 then customer.homeMortgage / customer.income else 1
  let base_score :=
    (monthly_disposable * 0.4) + (customer.capital * 0.3) + (customer.income * 0.3)
  let base_score := if customer.hasStudentLoan then base_score * 0.9 else base_score
  let base_score := base_score * (1 - ((customer.numberOfKids : ℚ) * 0.05))
  let base_score := base_score * (1 - debt_ratio)
  base_score

/-- The value of the local `final_rate` in `determine_interest_rate` just
before the clamping line, for a profile `w` already looked up from the
table: `(base_rate + credit_adjustment + env_adjustment) * interest_sensitivity`. -/
def interest_rate_preclamp (w : PersonalityProfile) (customer : Customer)
    (credit_score : ℚ) : ℚ :=
  let base_rate : ℚ := 0.05
  let credit_adjustment := max 0 ((1000 - credit_score) / 10000)
  let env_impact := customer.loan.environmentalImpact
  let env_adjustment : ℚ := if env_impact > 50 then 0.01 else -0.01
  (base_rate + credit_adjustment + env_adjustment) * w.interest_sensitivity

/-- `LoanManager.determine_interest_rate` (`src/main.py` lines 75-93).
The personality lookup can fail (`KeyError`), hence `Option`; on success the
pre-clamp rate is clamped by `max(0.02, min(0.15, final_rate))`. -/
def determine_interest_rate (pw : String → Option PersonalityProfile)
    (customer : Customer) (credit_score : ℚ) : Option ℚ :=
  match pw customer.personality with
  | none => none
  | some w => some (max 0.02 (min 0.15 (interest_rate_preclamp w customer credit_score)))

/-- The NumPy global random source, modelled as two streams of pre-drawn
values and a position: `units` supplies the results of `np.random.random()`
(uniform in `[0,1)`), `picks` supplies the index that `np.random.choice`
selects.  Each call consumes one draw and advances the position. -/
structure RandStream where
  units : ℕ → ℚ
  picks : ℕ → ℕ
  pos : ℕ

/-- One call of `np.random.random()`: the next uniform draw, and the
advanced stream. -/
def next_unit (r : RandStream) : ℚ × RandStream :=
  (r.units r.pos, { r with pos := r.pos + 1 })

/-- One call of NumPy random choice on a list `l`: a uniformly random element of `l`
(chosen by the next pick index, reduced mod the length) and the advanced
stream; `none` when `l` is empty (NumPy raises `ValueError`). -/
def next_choice (l : List String) (r : RandStream) : Option (String × RandStream) :=
  match l.get? (r.picks r.pos % l.length) with
  | none => none
  | some a => some (a, { r with pos := r.pos + 1 })

/-- A `{"Type": ..., "Award": ...}` action dictionary returned by
`generate_award_strategy`. -/
structure MonthlyAction where
  type : String
  award : String
  deriving DecidableEq, Repr

/-- The per-month award chance of `generate_award_strategy`
(`src/main.py` lines 99-107): `0.7` while `month < total_months * 0.3`,
else `0.5` while `month < total_months * 0.7`, else `0.3`. -/
def award_chance (month total_months : ℕ) : ℚ :=
  if (month : ℚ) < (total_months : ℚ) * 0.3 then 0.7
  else if (month : ℚ) < (total_months : ℚ) * 0.7 then 0.5
  else 0.3

/-- `LoanManager.generate_award_strategy` (`src/main.py` lines 95-117).
Fails (`none`) when the personality is not a key of the table, or when
`np.random.choice` is applied to an empty preference list. -/
def generate_award_strategy (pw : String → Option PersonalityProfile)
    (customer : Customer) (month total_months : ℕ) (r : RandStream) :
    Option (MonthlyAction × RandStream) :=
  match pw customer.personality with
  | none => none
  | some w =>
    let preferred_awards := w.award_preference
    let chance := award_chance month total_months
    let (u, r1) := next_unit r
    if u < chance then
      match next_choice preferred_awards r1 with
      | none => none
      | some (a, r2) => some ({ type := "Award", award := a }, r2)
    else
      some ({ type := "Skip", award := "None" }, r1)

/-- One entry of the `Proposals` list built by `generate_game_input`. -/
structure LoanProposal where
  CustomerName : String
  MonthsToPayBackLoan : ℕ
  YearlyInterestRate : ℚ
  deriving DecidableEq, Repr

/-- One assignment `d[k] = v` on the association-list model of a Python
`dict` (insertion order is kept, as the `month_actions` dictionary): overwrite
the first binding of `k` in place, or append a new binding at the end. -/
def dict_set (d : List (String × MonthlyAction)) (k : String) (v : MonthlyAction) :
    List (String × MonthlyAction) :=
  match d with
  | [] => [(k, v)]
  | (k', v') :: rest =>
    if k' = k then (k', v) :: rest else (k', v') :: dict_set rest k v

/-- The `game_input` dictionary assembled by `generate_game_input`. -/
structure GameInput where
  MapName : String
  Proposals : List LoanProposal
  Iterations : List (List (String × MonthlyAction))
  deriving DecidableEq, Repr

/-- The first loop of `generate_game_input` (`src/main.py` lines 127-136):
one `LoanProposal` per customer, in input order, failing if an interest
rate lookup fails. -/
def generate_proposals (pw : String → Option PersonalityProfile)
    (months_to_pay : ℕ) : List Customer → Option (List LoanProposal)
  | [] => some []
  | customer :: rest =>
    let credit_score := calculate_credit_score customer
    match determine_interest_rate pw customer credit_score with
    | none => none
    | some interest_rate =>
      match generate_proposals pw months_to_pay rest with
      | none => none
      | some ps =>
        some ({ CustomerName := customer.name,
                MonthsToPayBackLoan := months_to_pay,
                YearlyInterestRate := interest_rate } :: ps)

/-- The inner loop of the second half of `generate_game_input`
(`src/main.py` lines 140-146): fill the `month_actions` dictionary, one
customer at a time, threading the random stream. -/
def build_month_actions (pw : String → Option PersonalityProfile)
    (month total_months : ℕ) (acc : List (String × MonthlyAction)) :
    List Customer → RandStream → Option (List (String × MonthlyAction) × RandStream)
  | [], r => some (acc, r)
  | customer :: rest, r =>
    match generate_award_strategy pw customer month total_months r with
    | none => none
    | some (action, r1) =>
      build_month_actions pw month total_months (dict_set acc customer.name action) rest r1

/-- The outer loop of the second half of `generate_game_input`
(`src/main.py` lines 139-147), over an explicit list of month indices
(`range(gameLengthInMonths)` at the call site). -/
def build_iterations (pw : String → Option PersonalityProfile)
    (customers : List Customer) (total_months : ℕ) :
    List ℕ → RandStream →
    Option (List (List (String × MonthlyAction)) × RandStream)
  | [], r => some ([], r)
  | month :: ms, r =>
    match build_month_actions pw month total_months [] customers r with
    | none => none
    | some (month_actions, r1) =>
      match build_iterations pw customers total_months ms r1 with
      | none => none
      | some (its, r2) => some (month_actions :: its, r2)

/-- `LoanManager.generate_game_input` (`src/main.py` lines 119-149):
proposals for every customer, then `gameLengthInMonths` iteration entries
of per-customer actions, in month order `0, 1, ...`. -/
def generate_game_input (pw : String → Option PersonalityProfile)
    (map_data : MapData) (r : RandStream) : Option (GameInput × RandStream) :=
  match generate_proposals pw map_data.gameLengthInMonths map_data.customers with
  | none => none
  | some proposals =>
    match build_iterations pw map_data.customers map_data.gameLengthInMonths
        (List.range map_data.gameLengthInMonths) r with
    | none => none
    | some (iterations, r1) =>
      some ({ MapName := map_data.name,
              Proposals := proposals,
              Iterations := iterations }, r1)

/-- The object state of a `LoanManager`: the fields that
`generate_game_input` can read or write (`self.map_data` and
`self.personality_weights`; `self.awards_data` is never touched by it). -/
structure LoanManagerState where
  map_data : MapData
  personality_weights_table : String → Option PersonalityProfile

/-- The method call `self.generate_game_input()` as a state transformer:
the returned value together with the object state after the call.  The
method body contains no assignment to `self` or to any of its fields, so
the translation returns the state it was given. -/
def generate_game_input_method (s : LoanManagerState) (r : RandStream) :
    Option (GameInput × RandStream) × LoanManagerState :=
  (generate_game_input s.personality_weights_table s.map_data r, s)

/-! ### Concrete inputs used by the witness theorems -/

/-- A concrete customer: all financial fields zero, Conservative,
environmental impact 60. -/
def c0 : Customer :=
  { name := "Zero", income := 0, monthlyExpenses := 0, capital := 0,
    homeMortgage := 0, hasStudentLoan := false, numberOfKids := 0,
    personality := "Conservative", loan := { environmentalImpact := 60 } }

/-- The Conservative profile of the table. -/
def P0 : PersonalityProfile :=
  { interest_sensitivity := 0.8, environmental_bonus := 0.3,
    award_preference := ["IkeaCheck", "HalfInterestRate"] }

/-- A concrete random stream: every uniform draw is `0`, every pick is `0`. -/
def r0 : RandStream := { units := fun _ => 0, picks := fun _ => 0, pos := 0 }

/-- A concrete map: one customer, zero months. -/
def md0 : MapData := { name := "m", gameLengthInMonths := 0, customers := [c0] }

/-! ### Facts about the personality table -/

/-- Every profile of the five-entry table has a positive interest
sensitivity (the least is 0.4). -/
theorem personality_weights_sensitivity_pos {p : String} {w : PersonalityProfile}
    (h : personality_weights p = some w) : 0 < w.interest_sensitivity := by
  unfold personality_weights at h
  split_ifs at h
  all_goals simp only [Option.some.injEq, reduceCtorEq] at h
  all_goals subst h
  all_goals norm_num

/-- Every profile of the five-entry table has a nonempty award preference
list (each has exactly two entries). -/
theorem personality_weights_awards_ne_nil {p : String} {w : PersonalityProfile}
    (h : personality_weights p = some w) : w.award_preference ≠ [] := by
  unfold personality_weights at h
  split_ifs at h
  all_goals simp only [Option.some.injEq, reduceCtorEq] at h
  all_goals subst h
  all_goals simp

/-- Looking a personality up in the table succeeds exactly for the five
keys of the dictionary literal in `__init__`. -/
theorem personality_weights_isSome_iff (p : String) :
    (personality_weights p).isSome ↔ p ∈ personality_keys := by
  unfold personality_weights personality_keys
  split_ifs with h1 h2 h3 h4 h5 <;> simp_all

/-! ### The claims -/

/-- C1: for every customer whose personality is a key of the personality
table, and every credit score, `determine_interest_rate` returns a rate `r`
with `0.02 ≤ r ≤ 0.15`. -/
theorem determine_interest_rate_bounds (customer : Customer) (credit_score r : ℚ)
    (h : determine_interest_rate personality_weights customer credit_score = some r) :
    (0.02 : ℚ) ≤ r ∧ r ≤ 0.15 := by
  unfold determine_interest_rate at h
  cases hw : personality_weights customer.personality with
  | none => rw [hw] at h; cases h
  | some w =>
    rw [hw] at h
    simp only [Option.some.injEq] at h
    subst h
    refine ⟨le_max_left _ _, max_le (by norm_num) (min_le_left _ _)⟩

/-- Witness for C1: the all-zero Conservative customer with credit score 0
gets rate `16/125 = 0.128`, inside the bounds. -/
theorem determine_interest_rate_bounds_witness :
    (0.02 : ℚ) ≤ 16/125 ∧ (16/125 : ℚ) ≤ 0.15 :=
  determine_interest_rate_bounds c0 0 (16/125)
    (by norm_num [determine_interest_rate, interest_rate_preclamp,
      personality_weights, c0, max_def, min_def])

/-- The credit-score formula exactly as the spec words it: base score
`0.4·(income − expenses) + 0.3·capital + 0.3·income`, times 0.9 for a
student loan, times `1 − 0.05·kids`, times `1 − debtRatio`, with
`debtRatio = homeMortgage/income` for positive income and 1 otherwise. -/
def credit_score_spec (c : Customer) : ℚ :=
  let debtRatio : ℚ := if c.income > 0 then c.homeMortgage / c.income else 1
  ((c.income - c.monthlyExpenses) * 0.4 + c.capital * 0.3 + c.income * 0.3)
    * (if c.hasStudentLoan then 0.9 else 1)
    * (1 - 0.05 * (c.numberOfKids : ℚ))
    * (1 - debtRatio)

/-- C2: `calculate_credit_score` computes exactly the spec formula,
unclamped. -/
theorem calculate_credit_score_eq_spec (c : Customer) :
    calculate_credit_score c = credit_score_spec c := by
  simp only [calculate_credit_score, credit_score_spec]
  split_ifs <;> ring

/-- C8: a customer with all six financial fields zero (any name,
personality and loan) has credit score exactly 0. -/
theorem calculate_credit_score_zero (name personality : String) (loan : Loan) :
    calculate_credit_score
      { name := name, income := 0, monthlyExpenses := 0, capital := 0,
        homeMortgage := 0, hasStudentLoan := false, numberOfKids := 0,
        personality := personality, loan := loan } = 0 := by
  norm_num [calculate_credit_score]

/-- C4: all else equal, environmental impact 51 yields a strictly higher
pre-clamp interest rate than environmental impact 49, for any customer
whose personality is in the table (the adjustment is `+0.01` for impact
above 50 and `-0.01` otherwise, and every table sensitivity is positive). -/
theorem env_impact_51_beats_49 (c : Customer) (credit_score : ℚ)
    (w : PersonalityProfile) (h : personality_weights c.personality = some w) :
    interest_rate_preclamp w { c with loan := { environmentalImpact := 49 } } credit_score
      < interest_rate_preclamp w { c with loan := { environmentalImpact := 51 } } credit_score := by
  have hs := personality_weights_sensitivity_pos h
  simp only [interest_rate_preclamp]
  norm_num
  exact mul_lt_mul_of_pos_right (by linarith) hs

/-- Witness for C4: the all-zero Conservative customer at credit score 0. -/
theorem env_impact_51_beats_49_witness :
    interest_rate_preclamp P0 { c0 with loan := { environmentalImpact := 49 } } 0
      < interest_rate_preclamp P0 { c0 with loan := { environmentalImpact := 51 } } 0 :=
  env_impact_51_beats_49 c0 0 P0 rfl

/-- C9: for a customer whose personality is in the table, the returned
interest rate is monotonically non-increasing in the credit score, and from
credit score 1000 on the rate no longer changes (the credit adjustment is
0 there). -/
theorem determine_interest_rate_antitone (c : Customer) (w : PersonalityProfile)
    (h : personality_weights c.personality = some w) :
    (∀ cs1 cs2 r1 r2, cs1 ≤ cs2 →
        determine_interest_rate personality_weights c cs1 = some r1 →
        determine_interest_rate personality_weights c cs2 = some r2 →
        r2 ≤ r1)
    ∧ ∀ cs, 1000 ≤ cs →
        determine_interest_rate personality_weights c cs
          = determine_interest_rate personality_weights c 1000 := by
  have hs := (personality_weights_sensitivity_pos h).le
  constructor
  · intro cs1 cs2 r1 r2 hle h1 h2
    unfold determine_interest_rate at h1 h2
    rw [h] at h1 h2
    simp only [Option.some.injEq] at h1 h2
    subst h1
    subst h2
    have hdiv : (1000 - cs2) / 10000 ≤ (1000 - cs1) / 10000 := by linarith
    have hmax := max_le_max (le_refl (0:ℚ)) hdiv
    have key : interest_rate_preclamp w c cs2 ≤ interest_rate_preclamp w c cs1 := by
      simp only [interest_rate_preclamp]
      exact mul_le_mul_of_nonneg_right (by linarith) hs
    exact max_le_max (le_refl _) (min_le_min (le_refl _) key)
  · intro cs hcs
    unfold determine_interest_rate
    rw [h]
    have h1 : max (0:ℚ) ((1000 - cs) / 10000) = 0 := max_eq_left (by linarith)
    simp only [interest_rate_preclamp, h1]
    norm_num

/-- Witness for C9: for the all-zero Conservative customer, the rate at
credit score 1 (`0.12792`) is at most the rate at credit score 0 (`0.128`). -/
theorem determine_interest_rate_antitone_witness : (1599/12500 : ℚ) ≤ 16/125 :=
  (determine_interest_rate_antitone c0 P0 rfl).1 0 1 (16/125) (1599/12500)
    (by norm_num)
    (by norm_num [determine_interest_rate, interest_rate_preclamp,
      personality_weights, c0, max_def, min_def])
    (by norm_num [determine_interest_rate, interest_rate_preclamp,
      personality_weights, c0, max_def, min_def])

/-- C6: the scoring functions are deterministic (equal inputs give equal
results), and the award strategy is deterministic given an identically
positioned random stream. -/
theorem engine_deterministic (pw : String → Option PersonalityProfile)
    (c c' : Customer) (cs cs' : ℚ) (month month' total total' : ℕ)
    (r r' : RandStream)
    (hc : c = c') (hcs : cs = cs') (hm : month = month')
    (ht : total = total') (hr : r = r') :
    calculate_credit_score c = calculate_credit_score c'
    ∧ determine_interest_rate pw c cs = determine_interest_rate pw c' cs'
    ∧ generate_award_strategy pw c month total r
        = generate_award_strategy pw c' month' total' r' := by
  subst hc
  subst hcs
  subst hm
  subst ht
  subst hr
  exact ⟨rfl, rfl, rfl⟩

/-- Witness for C6, at the all-zero Conservative customer, month 0 of 10,
and the all-zeros random stream. -/
theorem engine_deterministic_witness :
    calculate_credit_score c0 = calculate_credit_score c0
    ∧ determine_interest_rate personality_weights c0 0
        = determine_interest_rate personality_weights c0 0
    ∧ generate_award_strategy personality_weights c0 0 10 r0
        = generate_award_strategy personality_weights c0 0 10 r0 :=
  engine_deterministic personality_weights c0 c0 0 0 0 0 10 10 r0 r0
    rfl rfl rfl rfl rfl

/-- The award chance as the spec words it: `0.7` for
`month < 0.3·totalMonths`, `0.5` for `0.3·totalMonths ≤ month < 0.7·totalMonths`,
`0.3` otherwise. -/
def award_chance_spec (month total_months : ℕ) : ℚ :=
  if (month : ℚ) < 0.3 * (total_months : ℚ) then 0.7
  else if 0.3 * (total_months : ℚ) ≤ (month : ℚ)
      ∧ (month : ℚ) < 0.7 * (total_months : ℚ) then 0.5
  else 0.3

/-- C5: the award chance follows the three spec phases with strict
less-than at each boundary, and one uniform draw `u` decides the action:
`u < awardChance` gives an Award with a random element of the preference
list, otherwise a Skip with award None. -/
theorem generate_award_strategy_phases (c : Customer) (month total_months : ℕ)
    (r : RandStream) (w : PersonalityProfile)
    (h : personality_weights c.personality = some w) :
    award_chance month total_months = award_chance_spec month total_months
    ∧ (r.units r.pos < award_chance month total_months →
        ∃ a ∈ w.award_preference, ∃ r2,
          generate_award_strategy personality_weights c month total_months r
            = some ({ type := "Award", award := a }, r2))
    ∧ (¬ r.units r.pos < award_chance month total_months →
        generate_award_strategy personality_weights c month total_months r
          = some ({ type := "Skip", award := "None" },
              { r with pos := r.pos + 1 })) := by
  have hchance : award_chance month total_months = award_chance_spec month total_months := by
    unfold award_chance award_chance_spec
    rcases lt_or_le ((month : ℚ)) (0.3 * (total_months : ℚ)) with hA | hA
    · rw [if_pos (by linarith : (month : ℚ) < (total_months : ℚ) * 0.3), if_pos hA]
    · rw [if_neg (not_lt.mpr (by linarith) :
            ¬ (month : ℚ) < (total_months : ℚ) * 0.3),
          if_neg (not_lt.mpr hA)]
      rcases lt_or_le ((month : ℚ)) (0.7 * (total_months : ℚ)) with hB | hB
      · rw [if_pos (by linarith : (month : ℚ) < (total_months : ℚ) * 0.7),
            if_pos (⟨hA, hB⟩ : 0.3 * (total_months : ℚ) ≤ (month : ℚ)
              ∧ (month : ℚ) < 0.7 * (total_months : ℚ))]
      · rw [if_neg (not_lt.mpr (by linarith) :
              ¬ (month : ℚ) < (total_months : ℚ) * 0.7),
            if_neg (fun hc => absurd hc.2 (not_lt.mpr hB))]
  refine ⟨hchance, ?_, ?_⟩
  · intro hu
    unfold generate_award_strategy
    rw [h]
    simp only [next_unit]
    rw [if_pos hu]
    have hlen : 0 < w.award_preference.length :=
      List.length_pos.mpr (personality_weights_awards_ne_nil h)
    have hmod := Nat.mod_lt (({ r with pos := r.pos + 1 } : RandStream).picks
      ({ r with pos := r.pos + 1 } : RandStream).pos) hlen
    simp only [next_choice, List.get?_eq_get hmod]
    exact ⟨_, List.get_mem _ _ _, _, rfl⟩
  · intro hu
    unfold generate_award_strategy
    rw [h]
    simp only [next_unit]
    rw [if_neg hu]

/-- Witness for C5: month 0 of 10 is the early phase, and the all-zeros
stream draws `u = 0 < 0.7`, so the Conservative customer gets an Award from
the Conservative preference list. -/
theorem generate_award_strategy_phases_witness :
    ∃ a ∈ P0.award_preference, ∃ r2,
      generate_award_strategy personality_weights c0 0 10 r0
        = some ({ type := "Award", award := a }, r2) :=
  (generate_award_strategy_phases c0 0 10 r0 P0 rfl).2.1
    (by norm_num [award_chance, r0])

/-! ### Shape lemmas for the assembler -/

/-- The proposals list names the customers in input order and repeats
`months_to_pay` in every entry. -/
theorem generate_proposals_shape (pw : String → Option PersonalityProfile)
    (months_to_pay : ℕ) (customers : List Customer) (ps : List LoanProposal)
    (h : generate_proposals pw months_to_pay customers = some ps) :
    ps.map (fun p => p.CustomerName) = customers.map (fun c_ => c_.name)
    ∧ ∀ p ∈ ps, p.MonthsToPayBackLoan = months_to_pay := by
  induction customers generalizing ps with
  | nil =>
    unfold generate_proposals at h
    simp only [Option.some.injEq] at h
    subst h
    simp
  | cons c rest ih =>
    unfold generate_proposals at h
    dsimp only [] at h
    cases hd : determine_interest_rate pw c (calculate_credit_score c) with
    | none => rw [hd] at h; cases h
    | some ir =>
      rw [hd] at h
      dsimp only [] at h
      cases hrest : generate_proposals pw months_to_pay rest with
      | none => rw [hrest] at h; cases h
      | some ps' =>
        rw [hrest] at h
        simp only [Option.some.injEq] at h
        subst h
        obtain ⟨hmap, hmon⟩ := ih ps' hrest
        refine ⟨by simp [hmap], ?_⟩
        intro p hp
        rcases List.mem_cons.mp hp with h1 | h2
        · subst h1; rfl
        · exact hmon p h2

/-- Assigning a key that is not yet bound appends it to the key sequence
of the dictionary. -/
theorem dict_set_keys_of_not_mem (d : List (String × MonthlyAction)) (k : String)
    (v : MonthlyAction) (hk : k ∉ d.map Prod.fst) :
    (dict_set d k v).map Prod.fst = d.map Prod.fst ++ [k] := by
  induction d with
  | nil => simp [dict_set]
  | cons p rest ih =>
    obtain ⟨k1, v1⟩ := p
    simp only [List.map_cons, List.mem_cons, not_or] at hk
    obtain ⟨h1, h2⟩ := hk
    simp only [dict_set]
    rw [if_neg (fun heq => h1 heq.symm)]
    simp only [List.map_cons, ih h2, List.cons_append]

/-- The keys of a filled `month_actions` dictionary are the accumulated keys
followed by the customer names, provided the names are fresh and distinct. -/
theorem build_month_actions_keys (pw : String → Option PersonalityProfile)
    (month total_months : ℕ) (customers : List Customer) :
    ∀ (acc : List (String × MonthlyAction)) (r : RandStream) d r1,
    build_month_actions pw month total_months acc customers r = some (d, r1) →
    (∀ c_ ∈ customers, c_.name ∉ acc.map Prod.fst) →
    (customers.map (fun c_ => c_.name)).Nodup →
    d.map Prod.fst = acc.map Prod.fst ++ customers.map (fun c_ => c_.name) := by
  induction customers with
  | nil =>
    intro acc r d r1 h _ _
    unfold build_month_actions at h
    simp only [Option.some.injEq, Prod.mk.injEq] at h
    simp [h.1]
  | cons c rest ih =>
    intro acc r d r1 h hfresh hnodup
    unfold build_month_actions at h
    cases ha : generate_award_strategy pw c month total_months r with
    | none => rw [ha] at h; cases h
    | some ar =>
      obtain ⟨a, r2⟩ := ar
      rw [ha] at h
      have hkeys := dict_set_keys_of_not_mem acc c.name a (hfresh c (by simp))
      have hfresh1 : ∀ c_ ∈ rest, c_.name ∉ (dict_set acc c.name a).map Prod.fst := by
        intro c_ hc
        rw [hkeys]
        simp only [List.mem_append, List.mem_singleton, not_or]
        refine ⟨hfresh c_ (by simp [hc]), ?_⟩
        intro heq
        simp only [List.map_cons, List.nodup_cons] at hnodup
        exact hnodup.1 (heq ▸ List.mem_map_of_mem (fun c2 => c2.name) hc)
      have hnodup1 : (rest.map (fun c_ => c_.name)).Nodup := by
        simp only [List.map_cons, List.nodup_cons] at hnodup
        exact hnodup.2
      have hrec := ih (dict_set acc c.name a) r2 d r1 h hfresh1 hnodup1
      rw [hrec, hkeys]
      simp

/-- Each successful `build_iterations` run yields one entry per month
index, and the entry at position `i` is a `build_month_actions` result for
the month at position `i`. -/
theorem build_iterations_shape (pw : String → Option PersonalityProfile)
    (customers : List Customer) (total_months : ℕ) (ms : List ℕ) :
    ∀ (r : RandStream) its r1,
    build_iterations pw customers total_months ms r = some (its, r1) →
    its.length = ms.length
    ∧ ∀ i (hi : i < its.length) (hm : i < ms.length), ∃ rs re,
        build_month_actions pw (ms.get ⟨i, hm⟩) total_months [] customers rs
          = some (its.get ⟨i, hi⟩, re) := by
  induction ms with
  | nil =>
    intro r its r1 h
    unfold build_iterations at h
    simp only [Option.some.injEq, Prod.mk.injEq] at h
    obtain ⟨h1, _⟩ := h
    subst h1
    exact ⟨rfl, fun i hi hm => absurd hm (by simp)⟩
  | cons m ms ih =>
    intro r its r1 h
    unfold build_iterations at h
    cases hmon : build_month_actions pw m total_months [] customers r with
    | none => rw [hmon] at h; cases h
    | some dr =>
      obtain ⟨d, r2⟩ := dr
      rw [hmon] at h
      dsimp only [] at h
      cases hrest : build_iterations pw customers total_months ms r2 with
      | none => rw [hrest] at h; cases h
      | some itsr =>
        obtain ⟨its2, r3⟩ := itsr
        rw [hrest] at h
        simp only [Option.some.injEq, Prod.mk.injEq] at h
        obtain ⟨h1, _⟩ := h
        subst h1
        obtain ⟨hlen, hidx⟩ := ih r2 its2 r3 hrest
        refine ⟨by simp [hlen], ?_⟩
        intro i hi hm
        cases i with
        | zero => exact ⟨r, r2, hmon⟩
        | succ j =>
          have hj : j < its2.length := by
            simp only [List.length_cons] at hi
            omega
          have hjm : j < ms.length := by
            simp only [List.length_cons] at hm
            omega
          obtain ⟨rs, re, hre⟩ := hidx j hj hjm
          exact ⟨rs, re, hre⟩

/-- C3: on a map with distinct customer names, `generate_game_input`
produces one proposal per customer in input order, each with
MonthsToPayBackLoan equal to the game length, and one iteration entry per
month `0, ..., M-1` in ascending order, each containing exactly one action
per customer. -/
theorem generate_game_input_shape (md : MapData) (r : RandStream)
    (gi : GameInput) (r1 : RandStream)
    (hnames : (md.customers.map (fun c_ => c_.name)).Nodup)
    (h : generate_game_input personality_weights md r = some (gi, r1)) :
    gi.MapName = md.name
    ∧ gi.Proposals.length = md.customers.length
    ∧ gi.Proposals.map (fun p => p.CustomerName) = md.customers.map (fun c_ => c_.name)
    ∧ (∀ p ∈ gi.Proposals, p.MonthsToPayBackLoan = md.gameLengthInMonths)
    ∧ gi.Iterations.length = md.gameLengthInMonths
    ∧ (∀ it ∈ gi.Iterations, it.length = md.customers.length)
    ∧ ∀ i (hi : i < gi.Iterations.length), ∃ rs re,
        build_month_actions personality_weights i md.gameLengthInMonths []
          md.customers rs = some (gi.Iterations.get ⟨i, hi⟩, re) := by
  unfold generate_game_input at h
  cases hp : generate_proposals personality_weights md.gameLengthInMonths md.customers with
  | none => rw [hp] at h; cases h
  | some ps =>
    rw [hp] at h
    cases hb : build_iterations personality_weights md.customers md.gameLengthInMonths
        (List.range md.gameLengthInMonths) r with
    | none => rw [hb] at h; cases h
    | some itsr =>
      obtain ⟨its, r2⟩ := itsr
      rw [hb] at h
      simp only [Option.some.injEq, Prod.mk.injEq] at h
      obtain ⟨h1, _⟩ := h
      subst h1
      obtain ⟨hpnames, hpmonths⟩ := generate_proposals_shape _ _ _ _ hp
      obtain ⟨hilen, hidx⟩ := build_iterations_shape _ _ _ _ _ _ _ hb
      have hfill : ∀ i (hi : i < its.length), ∃ rs re,
          build_month_actions personality_weights i md.gameLengthInMonths []
            md.customers rs = some (its.get ⟨i, hi⟩, re) := by
        intro i hi
        have hm : i < (List.range md.gameLengthInMonths).length := by
          rw [← hilen]; exact hi
        obtain ⟨rs, re, hre⟩ := hidx i hi hm
        rw [List.get_range] at hre
        exact ⟨rs, re, hre⟩
      refine ⟨rfl, ?_, hpnames, hpmonths, by simp [hilen], ?_, hfill⟩
      · have := congrArg List.length hpnames
        simpa using this
      · intro it hit
        obtain ⟨⟨i, hi⟩, rfl⟩ := List.mem_iff_get.mp hit
        obtain ⟨rs, re, hre⟩ := hfill i hi
        have hkeys := build_month_actions_keys personality_weights i
          md.gameLengthInMonths md.customers [] rs _ re hre (by simp) hnames
        have := congrArg List.length hkeys
        simpa using this

/-- The game input produced from `md0` by `r0`: one proposal for the single
all-zero customer (rate `0.128 = 16/125`) and no iterations. -/
def gi0 : GameInput :=
  { MapName := "m",
    Proposals := [{ CustomerName := "Zero", MonthsToPayBackLoan := 0,
                    YearlyInterestRate := 16/125 }],
    Iterations := [] }

/-- Witness for C3: the one-customer, zero-month map. -/
theorem generate_game_input_shape_witness :
    gi0.MapName = md0.name
    ∧ gi0.Proposals.length = md0.customers.length
    ∧ gi0.Proposals.map (fun p => p.CustomerName) = md0.customers.map (fun c_ => c_.name)
    ∧ (∀ p ∈ gi0.Proposals, p.MonthsToPayBackLoan = md0.gameLengthInMonths)
    ∧ gi0.Iterations.length = md0.gameLengthInMonths
    ∧ (∀ it ∈ gi0.Iterations, it.length = md0.customers.length)
    ∧ ∀ i (hi : i < gi0.Iterations.length), ∃ rs re,
        build_month_actions personality_weights i md0.gameLengthInMonths []
          md0.customers rs = some (gi0.Iterations.get ⟨i, hi⟩, re) :=
  generate_game_input_shape md0 r0 gi0 r0 (by simp [md0, c0])
    (by norm_num [generate_game_input, generate_proposals, build_iterations,
      determine_interest_rate, interest_rate_preclamp, personality_weights,
      calculate_credit_score, md0, c0, gi0, max_def, min_def, List.range_zero])

/-! ### Failure analysis -/

/-- `determine_interest_rate` succeeds exactly when the personality lookup
does. -/
theorem determine_interest_rate_isSome (pw : String → Option PersonalityProfile)
    (c : Customer) (cs : ℚ) :
    (determine_interest_rate pw c cs).isSome = (pw c.personality).isSome := by
  unfold determine_interest_rate
  cases pw c.personality <;> simp

/-- The proposals loop succeeds exactly when every personality lookup
does. -/
theorem generate_proposals_isSome (pw : String → Option PersonalityProfile)
    (months_to_pay : ℕ) (customers : List Customer) :
    (generate_proposals pw months_to_pay customers).isSome
      ↔ ∀ c_ ∈ customers, (pw c_.personality).isSome := by
  induction customers with
  | nil => simp [generate_proposals]
  | cons c rest ih =>
    unfold generate_proposals
    dsimp only []
    cases hd : determine_interest_rate pw c (calculate_credit_score c) with
    | none =>
      have hnone : (pw c.personality).isSome = false := by
        rw [← determine_interest_rate_isSome pw c (calculate_credit_score c), hd]
        rfl
      simp [hnone]
    | some ir =>
      have hsome : (pw c.personality).isSome = true := by
        rw [← determine_interest_rate_isSome pw c (calculate_credit_score c), hd]
        rfl
      cases hrest : generate_proposals pw months_to_pay rest with
      | none => simp_all
      | some ps => simp_all

/-- With the real table, the award strategy always succeeds for a customer
whose personality is a key (the preference list is then nonempty). -/
theorem generate_award_strategy_isSome (c : Customer) (month total_months : ℕ)
    (r : RandStream) (hc : (personality_weights c.personality).isSome) :
    (generate_award_strategy personality_weights c month total_months r).isSome := by
  obtain ⟨w, hw⟩ := Option.isSome_iff_exists.mp hc
  unfold generate_award_strategy
  rw [hw]
  simp only [next_unit]
  by_cases hu : r.units r.pos < award_chance month total_months
  · rw [if_pos hu]
    have hlen : 0 < w.award_preference.length :=
      List.length_pos.mpr (personality_weights_awards_ne_nil hw)
    have hmod := Nat.mod_lt (({ r with pos := r.pos + 1 } : RandStream).picks
      ({ r with pos := r.pos + 1 } : RandStream).pos) hlen
    simp only [next_choice, List.get?_eq_get hmod]
    simp
  · rw [if_neg hu]
    simp

/-- With the real table, filling one month of actions succeeds when every
personality is a key. -/
theorem build_month_actions_isSome (month total_months : ℕ)
    (customers : List Customer) :
    ∀ (acc : List (String × MonthlyAction)) (r : RandStream),
    (∀ c_ ∈ customers, (personality_weights c_.personality).isSome) →
    (build_month_actions personality_weights month total_months acc customers r).isSome := by
  induction customers with
  | nil =>
    intro acc r _
    simp [build_month_actions]
  | cons c rest ih =>
    intro acc r hall
    unfold build_month_actions
    have hc := generate_award_strategy_isSome c month total_months r (hall c (by simp))
    obtain ⟨⟨a, r2⟩, ha⟩ := Option.isSome_iff_exists.mp hc
    rw [ha]
    exact ih _ r2 (fun c_ hc_ => hall c_ (by simp [hc_]))

/-- With the real table, the iterations loop succeeds when every
personality is a key. -/
theorem build_iterations_isSome (customers : List Customer) (total_months : ℕ)
    (ms : List ℕ) :
    ∀ (r : RandStream),
    (∀ c_ ∈ customers, (personality_weights c_.personality).isSome) →
    (build_iterations personality_weights customers total_months ms r).isSome := by
  induction ms with
  | nil =>
    intro r _
    simp [build_iterations]
  | cons m ms ih =>
    intro r hall
    unfold build_iterations
    have hm := build_month_actions_isSome m total_months customers [] r hall
    obtain ⟨⟨d, r2⟩, hd⟩ := Option.isSome_iff_exists.mp hm
    rw [hd]
    dsimp only []
    have hrest := ih r2 hall
    obtain ⟨⟨its, r3⟩, hits⟩ := Option.isSome_iff_exists.mp hrest
    rw [hits]
    simp

/-- C7: `generate_game_input` (with the five-entry table) succeeds exactly
when every customer personality is one of the five keys; its only failure
is a propagated lookup failure. -/
theorem generate_game_input_isSome_iff (md : MapData) (r : RandStream) :
    (generate_game_input personality_weights md r).isSome
      ↔ ∀ c_ ∈ md.customers, c_.personality ∈ personality_keys := by
  constructor
  · intro h c_ hc
    rw [← personality_weights_isSome_iff]
    unfold generate_game_input at h
    cases hp : generate_proposals personality_weights md.gameLengthInMonths
        md.customers with
    | none => rw [hp] at h; simp at h
    | some ps =>
      have : (generate_proposals personality_weights md.gameLengthInMonths
          md.customers).isSome := by rw [hp]; rfl
      exact (generate_proposals_isSome _ _ _).mp this c_ hc
  · intro hall
    have hall1 : ∀ c_ ∈ md.customers, (personality_weights c_.personality).isSome :=
      fun c_ hc => (personality_weights_isSome_iff _).mpr (hall c_ hc)
    unfold generate_game_input
    obtain ⟨ps, hp⟩ := Option.isSome_iff_exists.mp
      ((generate_proposals_isSome _ _ _).mpr hall1)
    rw [hp]
    obtain ⟨⟨its, r2⟩, hb⟩ := Option.isSome_iff_exists.mp
      (build_iterations_isSome md.customers md.gameLengthInMonths
        (List.range md.gameLengthInMonths) r hall1)
    rw [hb]
    simp

/-- Witness for C7 (both directions at a concrete map): the one-customer
map `md0` succeeds, and each of its personalities is a table key. -/
theorem generate_game_input_isSome_iff_witness :
    ∀ c_ ∈ md0.customers, c_.personality ∈ personality_keys :=
  (generate_game_input_isSome_iff md0 r0).mp
    (by norm_num [generate_game_input, generate_proposals, build_iterations,
      determine_interest_rate, interest_rate_preclamp, personality_weights,
      calculate_credit_score, md0, c0, max_def, min_def, List.range_zero])

/-- C10: a `generate_game_input` call leaves the object state unchanged:
the map data (name, game length, every customer record) and the
personality-weights table after the call are the values from before it. -/
theorem generate_game_input_method_frame (s : LoanManagerState) (r : RandStream) :
    (generate_game_input_method s r).2.map_data = s.map_data
    ∧ (generate_game_input_method s r).2.personality_weights_table
        = s.personality_weights_table :=
  ⟨rfl, rfl⟩

end Consid24
